import Mathlib

/-!
Verification of the dapper build orchestration engine (rancher/dapper).

The Go sources are embedded shallowly: pure string manipulation becomes Lean
functions on `String` / `List String` (a file is its list of lines, as produced
by `bufio.Scanner`), the points where the code consults the outside world
(environment variables, the working directory, command success, the terminal)
become explicit parameters, and fallible operations return `Except`.
-/

namespace Dapper

/-- The character `"` (written numerically to keep string scanning simple). -/
def cQuote : Char := Char.ofNat 34

/-- The character `\x7b`. -/
def cLBrace : Char := Char.ofNat 123

/-- The character `\x7d`. -/
def cRBrace : Char := Char.ofNat 125

/-- Go `strings.HasPrefix s pre`: byte-wise prefix test, embedded on the
character list. -/
def startsWithStr (s pre : String) : Bool :=
  List.isPrefixOf pre.data s.data

/-- Accumulating loop of `strFields`. -/
def fieldsAux : List Char → List Char → List String
  | acc, [] => if acc.isEmpty then [] else [⟨acc.reverse⟩]
  | acc, c :: rest =>
    if c.isWhitespace then
      if acc.isEmpty then fieldsAux [] rest
      else ⟨acc.reverse⟩ :: fieldsAux [] rest
    else fieldsAux (c :: acc) rest

/-- Go `strings.Fields`: split around runs of whitespace, no empty fields. -/
def strFields (s : String) : List String :=
  fieldsAux [] s.data

/-- Go `strings.TrimSpace`: strip leading and trailing whitespace. -/
def trimGo (s : String) : String :=
  ⟨((s.data.dropWhile Char.isWhitespace).reverse.dropWhile Char.isWhitespace).reverse⟩

/-- Accumulating loop of `splitOnCharS`. -/
def splitOnChar (sep : Char) : List Char → List Char → List String
  | acc, [] => [⟨acc.reverse⟩]
  | acc, c :: rest =>
    if c = sep then ⟨acc.reverse⟩ :: splitOnChar sep [] rest
    else splitOnChar sep (c :: acc) rest

/-- Go `strings.Split` with a one-character separator. -/
def splitOnCharS (sep : Char) (s : String) : List String :=
  splitOnChar sep [] s.data

/-- Join a list of strings with a separator (Go `strings.Join`). -/
def joinSep (sep : String) : List String → String
  | [] => ""
  | [x] => x
  | x :: rest => x ++ sep ++ joinSep sep rest

/-- Assoc-list lookup, the embedding of a Go map read `m[k]` returning
`(value, ok)`. -/
def lookupA {α : Type} : List (String × α) → String → Option α
  | [], _ => none
  | (k2, v) :: rest, k => if k2 = k then some v else lookupA rest k

/-- Assoc-list update, the embedding of a Go map write `m[k] = v`. -/
def upsertA {α : Type} : List (String × α) → String → α → List (String × α)
  | [], k, v => [(k, v)]
  | (k2, v2) :: rest, k, v =>
    if k2 = k then (k, v) :: rest else (k2, v2) :: upsertA rest k v

/-! ### The architecture-map comment parser

The repository's `toMap` helper is not among the provided sources (only its
caller `dapperFile` is), so it is modelled from the spec. -/

/-- Drop whitespace, used between JSON tokens. -/
def skipWs (cs : List Char) : List Char :=
  cs.dropWhile Char.isWhitespace

/-- Consume characters up to the next `"` (the closing quote of a JSON string;
the spec's comment form has no escapes). Returns the string and the rest. -/
def scanJsonStr (acc : List Char) : List Char → Option (String × List Char)
  | [] => none
  | c :: rest =>
    if c = cQuote then some (⟨acc.reverse⟩, rest) else scanJsonStr (c :: acc) rest

/-- Parse one JSON string token: skip whitespace, expect `"`, scan to the
closing `"`. -/
def parseJsonStr (cs : List Char) : Option (String × List Char) :=
  match skipWs cs with
  | [] => none
  | c :: rest => if c = cQuote then scanJsonStr [] rest else none

/-- Parse one separator character (after skipping whitespace). -/
def parseSep (sep : Char) (cs : List Char) : Option (List Char) :=
  match skipWs cs with
  | [] => none
  | c :: rest => if c = sep then some rest else none

/-- Parse the `"k":"v"` pairs of a JSON object body (the part after the
opening brace), ending at the closing brace. `fuel` bounds the recursion. -/
def parsePairs : Nat → List Char → Option (List (String × String))
  | 0, _ => none
  | fuel + 1, cs =>
    match parseJsonStr cs with
    | none => none
    | some (k, rest1) =>
      match parseSep ':' rest1 with
      | none => none
      | some rest2 =>
        match parseJsonStr rest2 with
        | none => none
        | some (v, rest3) =>
          match skipWs rest3 with
          | [] => none
          | c :: rest4 =>
            if c = ',' then (parsePairs fuel rest4).map (fun ps => (k, v) :: ps)
            else if c = cRBrace then some [(k, v)]
            else none

/-- True of characters other than the opening brace. -/
def notBrace (c : Char) : Bool := c ≠ cLBrace

/-- Modelled from the spec: the repository's `toMap` helper (not included in
the provided sources) parses an architecture-map comment line of the form
`# FROM \x7b"arch":"image", ...\x7d` — a JSON object literal with string keys
and string values — into a map from architecture name to image reference (or
the sentinel "skip"). Text before the opening brace is ignored; a line with no
well-formed object yields the empty map. -/
def toMap (line : String) : List (String × String) :=
  match line.data.dropWhile notBrace with
  | [] => []
  | _ :: rest =>
    match skipWs rest with
    | [] => []
    | c :: _ =>
      if c = cRBrace then []
      else (parsePairs (rest.length + 1) rest).getD []

/-! ### The Dockerfile preprocessor (`dapperFile`) -/

/-- Outcome signals of a build: the distinguished skip signal
(`ErrSkipBuild = errors.New("skip build")`) versus ordinary errors. -/
inductive BuildSignal : Type
  | skipBuild
  | buildError (msg : String)
deriving DecidableEq

/-- The scanner loop of `Dapperfile.dapperFile`, embedded on the list of input
lines. A line `FROM <image>` (exactly two fields) makes the scanner consume the
next line as lookahead: if that next line starts with `# FROM`, its
architecture map is consulted for `hostArch` — the value "skip" aborts with the
skip signal, any other value rewrites the image reference — and in every
non-skip case both the (possibly rewritten) FROM line and the lookahead line
are emitted in that order. All other lines pass through unchanged. -/
def dapperLines (hostArch : String) : List String → Except BuildSignal (List String)
  | [] => .ok []
  | line :: rest =>
    if startsWithStr line "FROM " ∧ (strFields line).length = 2 then
      match rest with
      | [] => .ok [line]
      | nextLine :: rest2 =>
        if startsWithStr nextLine "# FROM" then
          match lookupA (toMap nextLine) hostArch with
          | some v =>
            if v = "skip" then .error .skipBuild
            else (dapperLines hostArch rest2).map
              (fun out => ("FROM " ++ v) :: nextLine :: out)
          | none => (dapperLines hostArch rest2).map
              (fun out => line :: nextLine :: out)
        else (dapperLines hostArch rest2).map
          (fun out => line :: nextLine :: out)
    else (dapperLines hostArch rest).map (fun out => line :: out)

/-- Function `Dapperfile.dapperFile`: the produced byte buffer, each emitted line
followed by a single newline. -/
def dapperFile (hostArch : String) (lines : List String) : Except BuildSignal String :=
  (dapperLines hostArch lines).map
    (fun out => String.join (out.map (fun l => l ++ "\n")))

/-- The comment line `# FROM \x7b"amd64":"<img>","arm64":"skip"\x7d` of the C2
scenario. -/
def archComment (img : String) : String :=
  "# FROM \x7b\"amd64\":\"" ++ img ++ "\",\"arm64\":\"skip\"\x7d"

/-- The characters of that comment after the closing quote of the first
value. -/
def archTail : List Char :=
  [',', cQuote, 'a', 'r', 'm', '6', '4', cQuote, ':', cQuote, 's', 'k', 'i', 'p',
    cQuote, cRBrace]

/-! ### Harvesting build arguments from the environment (`argsFromEnv`) -/

/-- The per-line analysis of the `argsFromEnv` scanner loop: trim the line,
split into fields, require at least two fields with the first being `ARG`, and
take the part of the second field before `=` as the argument name. -/
def argLineKey (rawLine : String) : Option String :=
  let fields := strFields (trimGo rawLine)
  if fields.length ≤ 1 then none
  else if ¬(fields.headD "" = "ARG") then none
  else some ((splitOnCharS '=' (fields.getD 1 "")).headD "")

/-- The build-argument value for a declared name: the host environment value,
with the special name `DAPPER_HOST_ARCH` synthesized from the engine's
reported architecture when unset. -/
def argValueOf (getenv : String → String) (findHost key : String) : String :=
  if key = "DAPPER_HOST_ARCH" ∧ getenv key = "" then findHost else getenv key

/-- One iteration of the `argsFromEnv` loop over the state
(collected map, current host architecture). `getenv` is the host environment
(`os.Getenv`, returning "" for unset variables) and `findHost` the value the
container engine reports for `findHostArch`. An entry is recorded only when
the value is non-empty. -/
def argsFromEnvStep (getenv : String → String) (findHost : String)
    (st : List (String × String) × String) (rawLine : String) :
    List (String × String) × String :=
  match argLineKey rawLine with
  | none => st
  | some key =>
    if ¬(argValueOf getenv findHost key = "") then
      (upsertA st.1 key (argValueOf getenv findHost key),
        if key = "DAPPER_HOST_ARCH" then argValueOf getenv findHost key else st.2)
    else
      (st.1, if key = "DAPPER_HOST_ARCH" then argValueOf getenv findHost key else st.2)

/-- Function `Dapperfile.argsFromEnv`: fold the per-line step over the Dockerfile's
lines, starting from an empty map and the current `hostArch` field. -/
def argsFromEnv (getenv : String → String) (findHost : String) (initArch : String)
    (lines : List String) : List (String × String) × String :=
  lines.foldl (argsFromEnvStep getenv findHost) ([], initArch)

/-! ### The tag deriver (`tag`) -/

/-- Go `strings.ToLower` restricted to its ASCII behaviour (`Char.toLower`
lowers exactly the ASCII uppercase letters; the tag claims only concern ASCII
names). -/
def lowerGo (s : String) : String := ⟨s.data.map Char.toLower⟩

/-- The character class `[a-zA-Z0-9]` of the sanitization regexp `re`. -/
def isAlnumChar (c : Char) : Bool :=
  ('a' ≤ c ∧ c ≤ 'z') ∨ ('A' ≤ c ∧ c ≤ 'Z') ∨ ('0' ≤ c ∧ c ≤ '9')

/-- Sanitization `re.ReplaceAllLiteralString(ref, "-")`: every character outside
`[a-zA-Z0-9]` becomes `-`. -/
def sanitizeRef (s : String) : String :=
  ⟨s.data.map (fun c => if isAlnumChar c then c else '-')⟩

/-- The character class `[A-Za-z0-9:-]` the spec asserts for derived tags. -/
def tagLegalChar (c : Char) : Bool :=
  isAlnumChar c || c = ':' || c = '-'

/-- Function `Dapperfile.tag`: `cwdBase` is the base name of the working directory
(`none` models a failing `os.Getwd`), `gitOutput` the raw output of
`git rev-parse --abbrev-ref HEAD`, and `rand` the token `randString` would
produce. The directory name is lowercased, the trimmed ref falls back to the
random token when empty, and the ref is sanitized. -/
def tagOf (cwdBase : Option String) (gitOutput rand : String) : String :=
  let cwd := match cwdBase with
    | some b => b
    | none => "dapper-unknown"
  let cwd := lowerGo cwd
  let t := trimGo gitOutput
  let t := if t = "" then rand else t
  cwd ++ ":" ++ sanitizeRef t

/-! ### The run-argument builder (`runArgs`) -/

/-- The inputs `runArgs` draws from the Dapperfile struct, the Runtime Config
read back from the image, and the host. `vSocket` stands for the socket mount
specification `d.vSocket()` produces (its definition is not among the provided
sources; only the flag pair it is mounted with matters here). -/
structure RunConfig where
  tty : Bool
  envSocket : Bool
  dSocket : Bool
  vSocket : String
  isBind : Bool
  wd : Option String
  mountSuffix : String
  cp : String
  source : String
  uid : Int
  gid : Int
  env : List String
  extraRunArgs : List String
deriving DecidableEq

/-- The generated container name
`fmt.Sprintf("%s-%s", strings.Split(tag, ":")[0], randString())`. -/
def mkContainerName (tg rand : String) : String :=
  ((splitOnCharS ':' tg).headD "") ++ "-" ++ rand

/-- Function `Dapperfile.runArgs`: the argument vector for container creation, built by
the same sequence of appends as the source. -/
def runArgs (cfg : RunConfig) (tg shell : String) (commandArgs : List String)
    (rand : String) : String × List String :=
  let name := mkContainerName tg rand
  let args := ["-i", "--name", name]
  let args := if cfg.tty then args ++ ["-t"] else args
  let args := if cfg.envSocket || cfg.dSocket then args ++ ["-v", cfg.vSocket] else args
  let args :=
    if cfg.isBind then
      match cfg.wd with
      | some wd =>
        let sfx := if ¬(cfg.mountSuffix = "") then ":" ++ cfg.mountSuffix else ""
        args ++ ["-v", wd ++ "/" ++ cfg.cp ++ ":" ++ cfg.source ++ sfx]
      | none => args
    else args
  let args := args ++ ["-e", "DAPPER_UID=" ++ toString cfg.uid]
  let args := args ++ ["-e", "DAPPER_GID=" ++ toString cfg.gid]
  let args := cfg.env.foldl (fun a e => a ++ ["-e", e]) args
  let args := if ¬(shell = "") then args ++ ["--entrypoint", shell, "-e", "TERM"] else args
  let args := args ++ cfg.extraRunArgs
  let args := args ++ [tg]
  let args :=
    if ¬(shell = "") ∧ commandArgs.length = 0 then args ++ ["-"]
    else args ++ commandArgs
  (name, args)

/-! ### The bake build graph (`bake`, package bake) -/

/-- Struct `bake.Group`. -/
structure Group where
  Targets : List String
deriving DecidableEq

/-- Struct `bake.Target`. -/
structure Target where
  Args : List (String × String)
  Context : String
  Contexts : List (String × String)
  CacheFrom : List String
  CacheTo : List String
  Dockerfile : String
  DockerfileInline : String
  Outputs : List String
  Tags : List String
  Target : String
deriving DecidableEq

/-- Struct `bake.File`. -/
structure BakeFile where
  Groups : List (String × Group)
  Targets : List (String × Target)
deriving DecidableEq

/-- The Go zero value of `bake.Target` (what indexing a map at a missing key
yields). -/
def emptyTarget : Target :=
  { Args := [], Context := "", Contexts := [], CacheFrom := [], CacheTo := [],
    Dockerfile := "", DockerfileInline := "", Outputs := [], Tags := [], Target := "" }

/-- The Dapperfile fields `bake` consults. -/
structure BakeConfig where
  NoContext : Bool
  Target : String
  Args : List (String × String)
  File : String
  CacheFrom : List String
  CacheTo : List String
deriving DecidableEq

/-- The build context path: the first positional argument, defaulting to
the current directory. -/
def contextPathOf (args : List String) : String :=
  match args with
  | [] => "."
  | a :: _ => a

/-- The graph-construction part of `Dapperfile.bake` (lines building
`bakefile`): a "default" group with a "stage1" target, plus — when the build
is for run (`copy`) and the mode is not bind — a "stage2" copy target wired to
stage1 via a named context, after which stage1's own tags, cache directives
and outputs are replaced. -/
def bakeFile (cfg : BakeConfig) (args : List String) (copy isBind : Bool)
    (tag cp source : String) : BakeFile :=
  let contextPath := contextPathOf args
  let stage1 : Target :=
    { Args := cfg.Args, Context := contextPath, Contexts := [],
      CacheFrom := cfg.CacheFrom, CacheTo := cfg.CacheTo,
      Dockerfile := cfg.File, DockerfileInline := "",
      Outputs := ["type=docker"], Tags := [tag], Target := cfg.Target }
  let bakefile : BakeFile :=
    { Groups := [("default", ⟨["stage1"]⟩)], Targets := [("stage1", stage1)] }
  if copy ∧ isBind = false then
    let defaultGroup := (lookupA bakefile.Groups "default").getD ⟨[]⟩
    let defaultGroup : Group := ⟨defaultGroup.Targets ++ ["stage2"]⟩
    let groups := upsertA bakefile.Groups "default" defaultGroup
    let stage1b := (lookupA bakefile.Targets "stage1").getD emptyTarget
    let stage2 : Target :=
      { Args := [], Context := stage1b.Context,
        Contexts := [("stage1", "target:stage1")],
        CacheFrom := stage1b.CacheFrom, CacheTo := stage1b.CacheTo,
        Dockerfile := "",
        DockerfileInline := "FROM stage1\nCOPY " ++ cp ++ " " ++ source,
        Outputs := stage1b.Outputs, Tags := stage1b.Tags, Target := "" }
    let targets := upsertA bakefile.Targets "stage2" stage2
    let stage1c := { stage1b with
      Outputs := ["type=cacheonly"], CacheFrom := [], CacheTo := [], Tags := [] }
    let targets := upsertA targets "stage1" stage1c
    { Groups := groups, Targets := targets }
  else bakefile

/-- Function `Dapperfile.bake` around the graph construction: the contextless check
comes first and fails before anything else; afterwards the serialized graph is
submitted to `buildx bake` on standard input and the Runtime Config is read
back. The returned list is the trace of backend commands issued; `execOk`
and `readEnvOk` stand for the outcomes of those external commands. -/
def bake (cfg : BakeConfig) (args : List String) (copy isBind : Bool)
    (tag cp source : String) (execOk : List String → Bool) (readEnvOk : Bool) :
    List (List String) × Except String String :=
  if cfg.NoContext then ([], .error "contextless builds are not supported by buildkit")
  else
    let _bf := bakeFile cfg args copy isBind tag cp source
    let submitCmd := ["buildx", "bake", "-f", "-"]
    if execOk submitCmd = false then ([submitCmd], .error "bake failed")
    else
      let inspectCmd := ["inspect", "-f", "\x7b\x7bjson .Config.Env\x7d\x7d", tag]
      if readEnvOk = false then ([submitCmd, inspectCmd], .error "inspect failed")
      else ([submitCmd, inspectCmd], .ok tag)

/-! ### The classic build (`buildLegacy`) -/

/-- The Dapperfile fields `buildLegacy` consults when assembling the `build`
command line. -/
structure LegacyConfig where
  Quiet : Bool
  Target : String
  Args : List (String × String)
  NoContext : Bool
deriving DecidableEq

/-- The `buildArgs` accumulation of `buildLegacy` up to the context part. -/
def buildArgsFor (cfg : LegacyConfig) (args : List String) (tag : String) :
    List String :=
  let b := ["build"]
  let b := if args.length = 0 then b ++ ["-t", tag] else b
  let b := if cfg.Quiet then b ++ ["-q"] else b
  let b := if ¬(cfg.Target = "") then b ++ ["--target", cfg.Target] else b
  cfg.Args.foldl (fun acc kv => acc ++ ["--build-arg", kv.1 ++ "=" ++ kv.2]) b

/-- Function `Dapperfile.buildLegacy`: preprocess first (a skip or error returns at
once, before any backend command), then issue the build command, and for a
run-purpose build read the Runtime Config back and, in non-bind mode, perform
the synthetic copy build. `tmp1`/`tmp2` are the temporary file names, `execOk`
and `readEnvOk` the outcomes of the external commands; the returned list is
the trace of backend commands issued. -/
def buildLegacy (cfg : LegacyConfig) (hostArch : String) (input : List String)
    (args : List String) (copy isBind : Bool) (tag tmp1 tmp2 : String)
    (execOk : List String → Bool) (readEnvOk : Bool) :
    List (List String) × Except BuildSignal String :=
  match dapperLines hostArch input with
  | .error e => ([], .error e)
  | .ok _content =>
    let bargs := buildArgsFor cfg args tag
    let buildCmd :=
      if cfg.NoContext then bargs ++ ["-"] ++ args
      else bargs ++ ["-f", tmp1] ++ (if 0 < args.length then args else ["."])
    if execOk buildCmd = false then ([buildCmd], .error (.buildError "build failed"))
    else if copy = false then ([buildCmd], .ok tag)
    else
      let inspectCmd := ["inspect", "-f", "\x7b\x7bjson .Config.Env\x7d\x7d", tag]
      if readEnvOk = false then
        ([buildCmd, inspectCmd], .error (.buildError "inspect failed"))
      else if isBind then ([buildCmd, inspectCmd], .ok tag)
      else
        let copyCmd := ["build", "-t", tag, "-f", tmp2, "."]
        if execOk copyCmd = false then
          ([buildCmd, inspectCmd, copyCmd], .error (.buildError "build failed"))
        else ([buildCmd, inspectCmd, copyCmd], .ok tag)

/-! ### The output copy-back step of `Run` -/

/-- Go `path.Join(a, b)` as used on the output paths (the `Clean`
normalization of the joined value is not modelled; no claim depends on the
normalized spelling). -/
def pathJoin (a b : String) : String := a ++ "/" ++ b

/-- Go `path.Dir`: everything before the last slash ("." when there is no
slash, "/" when the dirname is empty). -/
def pathDir (s : String) : String :=
  let parts := splitOnCharS '/' s
  if parts.length ≤ 1 then "."
  else
    let dir := joinSep "/" parts.dropLast
    if dir = "" then "/" else dir

/-- The outcome of the copy-back phase: the host directories ensured to exist
(`os.MkdirAll`), the `docker cp` commands issued, and the overall result. -/
structure CopyBackResult where
  dirs : List String
  cmds : List (List String)
  result : Except String Unit

/-- The `for _, i := range output` loop at the end of `Run`: resolve the
in-container path, ensure the host target directory exists (a `MkdirAll`
failure is returned and aborts the loop), and issue `docker cp`. -/
def copyBackLoop (name source : String) (mkdirOk : String → Bool)
    (cpOk : List String → Bool) :
    List String → List String → List (List String) → CopyBackResult
  | [], dirs, cmds => ⟨dirs, cmds, .ok ()⟩
  | i :: restOut, dirs, cmds =>
    let p := if startsWithStr i "/" then i else pathJoin source i
    let targetDir := pathDir i
    if mkdirOk targetDir = false then
      ⟨dirs ++ [targetDir], cmds, .error ("mkdir " ++ targetDir)⟩
    else
      let cmd := ["cp", name ++ ":" ++ p, targetDir]
      -- the outcome of the cp command is only logged (logrus.Debugf);
      -- it does not affect control flow
      let _ := cpOk cmd
      copyBackLoop name source mkdirOk cpOk restOut (dirs ++ [targetDir]) (cmds ++ [cmd])

/-- The guarded copy-back step of `Run`: skipped entirely in bind mode or when
output is disabled. -/
def runCopyBack (isBind noOut : Bool) (name source : String) (output : List String)
    (mkdirOk : String → Bool) (cpOk : List String → Bool) : CopyBackResult :=
  if !isBind && !noOut then copyBackLoop name source mkdirOk cpOk output [] []
  else ⟨[], [], .ok ()⟩

/-! ## Theorems -/

theorem isPrefixOf_self_append (l t : List Char) : List.isPrefixOf l (l ++ t) = true := by
  induction l with
  | nil => simp [List.isPrefixOf]
  | cons a as ih => simp [List.isPrefixOf, ih]

theorem startsWithStr_append (pre x : String) : startsWithStr (pre ++ x) pre = true := by
  simp [startsWithStr, String.data_append, isPrefixOf_self_append]

theorem scanJsonStr_append : ∀ (y : List Char), (∀ c ∈ y, c ≠ cQuote) →
    ∀ (acc rest : List Char),
      scanJsonStr acc (y ++ cQuote :: rest) = some (⟨acc.reverse ++ y⟩, rest)
  | [], _, acc, rest => by simp [scanJsonStr]
  | c :: y, hy, acc, rest => by
    have hc : c ≠ cQuote := hy c (List.mem_cons_self ..)
    have ih := scanJsonStr_append y (fun c2 h2 => hy c2 (List.mem_cons_of_mem _ h2))
      (c :: acc) rest
    show scanJsonStr acc (c :: (y ++ cQuote :: rest))
        = some (⟨acc.reverse ++ c :: y⟩, rest)
    rw [scanJsonStr, if_neg hc, ih]
    simp [List.append_assoc]

theorem dropWhile_until (l1 l2 : List Char) (h : ∀ c ∈ l1, c ≠ cLBrace) :
    (l1 ++ cLBrace :: l2).dropWhile notBrace = cLBrace :: l2 := by
  induction l1 with
  | nil =>
    have hb : notBrace cLBrace = false := by simp [notBrace]
    simp [List.dropWhile_cons, hb]
  | cons a l ih =>
    have ha : notBrace a = true := by simp [notBrace, h a (List.mem_cons_self ..)]
    simp [List.dropWhile_cons, ha, ih (fun c hc => h c (List.mem_cons_of_mem _ hc))]

theorem parsePairs_arch (n : Nat) (Y : String) (hy : ∀ c ∈ Y.data, c ≠ cQuote) :
    parsePairs (n + 2)
      (cQuote :: 'a' :: 'm' :: 'd' :: '6' :: '4' :: cQuote :: ':' :: cQuote ::
        (Y.data ++ cQuote :: archTail))
      = some [("amd64", Y), ("arm64", "skip")] := by
  have h2 : n + 2 = (n + 1) + 1 := rfl
  have happ := scanJsonStr_append Y.data hy []
  rw [h2]
  simp only [archTail, List.cons_append, List.nil_append]
  simp +decide [parsePairs, parseJsonStr, parseSep, skipWs, scanJsonStr,
    List.dropWhile_cons, happ]

theorem toMap_archComment (Y : String) (hy : ∀ c ∈ Y.data, c ≠ cQuote) :
    toMap (archComment Y) = [("amd64", Y), ("arm64", "skip")] := by
  have hpre : ("# FROM \x7b\"amd64\":\"" : String).data
      = ['#', ' ', 'F', 'R', 'O', 'M', ' '] ++ cLBrace ::
          [cQuote, 'a', 'm', 'd', '6', '4', cQuote, ':', cQuote] := by decide
  have hsuf : ("\",\"arm64\":\"skip\"\x7d" : String).data = cQuote :: archTail := by decide
  have hdata : (archComment Y).data
      = ['#', ' ', 'F', 'R', 'O', 'M', ' '] ++ cLBrace ::
          (cQuote :: 'a' :: 'm' :: 'd' :: '6' :: '4' :: cQuote :: ':' :: cQuote ::
            (Y.data ++ cQuote :: archTail)) := by
    simp only [archComment, String.data_append, hpre, hsuf, List.cons_append,
      List.nil_append, List.append_assoc]
    simp +decide [archTail]
  have h7 : ∀ c ∈ ['#', ' ', 'F', 'R', 'O', 'M', ' '], c ≠ cLBrace := by decide
  have hdrop := dropWhile_until _
    (cQuote :: 'a' :: 'm' :: 'd' :: '6' :: '4' :: cQuote :: ':' :: cQuote ::
      (Y.data ++ cQuote :: archTail)) h7
  rw [toMap, hdata, hdrop]
  have hqws : cQuote.isWhitespace = false := by decide
  have hqrb : ¬(cQuote = cRBrace) := by decide
  simp only [skipWs, List.dropWhile_cons, hqws, Bool.false_eq_true, if_false, if_neg hqrb]
  have hlen : (cQuote :: 'a' :: 'm' :: 'd' :: '6' :: '4' :: cQuote :: ':' :: cQuote ::
      (Y.data ++ cQuote :: archTail)).length + 1 = (Y.data.length + 25) + 2 := by
    simp [archTail]
  rw [hlen, parsePairs_arch _ Y hy]
  rfl

theorem archComment_startsWith (Y : String) :
    startsWithStr (archComment Y) "# FROM" = true := by
  have h6 : ("# FROM" : String).data = ['#', ' ', 'F', 'R', 'O', 'M'] := by decide
  have hpre : ("# FROM \x7b\"amd64\":\"" : String).data
      = '#' :: ' ' :: 'F' :: 'R' :: 'O' :: 'M' ::
          [' ', cLBrace, cQuote, 'a', 'm', 'd', '6', '4', cQuote, ':', cQuote] := by decide
  simp +decide [startsWithStr, archComment, String.data_append, h6, hpre, List.isPrefixOf]

theorem FROM_not_comment (B : String) :
    startsWithStr ("FROM " ++ B) "# FROM" = false := by
  have h6 : ("# FROM" : String).data = ['#', ' ', 'F', 'R', 'O', 'M'] := by decide
  have h5 : ("FROM " : String).data = ['F', 'R', 'O', 'M', ' '] := by decide
  simp +decide [startsWithStr, String.data_append, h6, h5, List.isPrefixOf]

theorem comment_not_FROM (cm : String) (h : startsWithStr cm "# FROM" = true) :
    startsWithStr cm "FROM " = false := by
  have h6 : ("# FROM" : String).data = ['#', ' ', 'F', 'R', 'O', 'M'] := by decide
  have h5 : ("FROM " : String).data = ['F', 'R', 'O', 'M', ' '] := by decide
  rw [startsWithStr, h6] at h
  rw [startsWithStr, h5]
  cases hd : cm.data with
  | nil => rw [hd] at h; simp [List.isPrefixOf] at h
  | cons c restc =>
    rw [hd] at h
    simp only [List.isPrefixOf, Bool.and_eq_true, beq_iff_eq] at h
    rw [List.isPrefixOf, ← h.1]
    simp +decide

/-- C2: a single-token FROM line immediately followed by the comment
`# FROM \x7b"amd64":"Y","arm64":"skip"\x7d` is rewritten to `FROM Y` on host
architecture amd64; on arm64 preprocessing returns the skip signal; on any
architecture not listed in the map the FROM line is emitted unchanged; and in
every non-skip case the (possibly rewritten) FROM line and the original
comment line both appear in the output, in that order. -/
theorem C2_arch_conditional_FROM (X Y : String) (rest : List String) (hostArch : String)
    (hX : (strFields ("FROM " ++ X)).length = 2)
    (hY : ∀ c ∈ Y.data, c ≠ cQuote) (hYskip : Y ≠ "skip")
    (hOther : hostArch ≠ "amd64" ∧ hostArch ≠ "arm64") :
    dapperLines "amd64" (("FROM " ++ X) :: archComment Y :: rest)
        = (dapperLines "amd64" rest).map
            (fun out => ("FROM " ++ Y) :: archComment Y :: out)
    ∧ dapperLines "arm64" (("FROM " ++ X) :: archComment Y :: rest)
        = .error .skipBuild
    ∧ dapperLines hostArch (("FROM " ++ X) :: archComment Y :: rest)
        = (dapperLines hostArch rest).map
            (fun out => ("FROM " ++ X) :: archComment Y :: out) := by
  have hfrom : startsWithStr ("FROM " ++ X) "FROM " = true := startsWithStr_append ..
  have hcm := archComment_startsWith Y
  have hmap := toMap_archComment Y hY
  have ha1 : ¬("amd64" : String) = hostArch := fun h => hOther.1 h.symm
  have ha2 : ¬("arm64" : String) = hostArch := fun h => hOther.2 h.symm
  refine ⟨?_, ?_, ?_⟩
  · simp +decide [dapperLines, hfrom, hX, hcm, hmap, lookupA, hYskip]
  · simp +decide [dapperLines, hfrom, hX, hcm, hmap, lookupA]
  · simp +decide [dapperLines, hfrom, hX, hcm, hmap, lookupA, ha1, ha2]

theorem exceptMap_ok_inv {ε α β : Type} (f : α → β) (e : Except ε α) (b : β)
    (h : e.map f = .ok b) : ∃ a, e = .ok a ∧ b = f a := by
  cases e with
  | error e => simp [Except.map] at h
  | ok a =>
    simp only [Except.map, Except.ok.injEq] at h
    exact ⟨a, rfl, h.symm⟩

theorem dapperLines_cons_plain (hostArch line : String) (rest : List String)
    (hc : ¬(startsWithStr line "FROM " = true ∧ (strFields line).length = 2)) :
    dapperLines hostArch (line :: rest)
      = (dapperLines hostArch rest).map (fun out => line :: out) := by
  rw [dapperLines.eq_def]
  exact if_neg hc

theorem dapperLines_single_from (hostArch line : String)
    (hc : startsWithStr line "FROM " = true ∧ (strFields line).length = 2) :
    dapperLines hostArch [line] = .ok [line] := by
  rw [dapperLines.eq_2, if_pos hc]

theorem dapperLines_single (hostArch line : String) :
    dapperLines hostArch [line] = .ok [line] := by
  by_cases hc : startsWithStr line "FROM " = true ∧ (strFields line).length = 2
  · exact dapperLines_single_from hostArch line hc
  · rw [dapperLines_cons_plain hostArch line [] hc]; rfl

theorem dapperLines_pair_noncomment (hostArch line nx : String) (rest2 : List String)
    (hc : startsWithStr line "FROM " = true ∧ (strFields line).length = 2)
    (hnx : startsWithStr nx "# FROM" = false) :
    dapperLines hostArch (line :: nx :: rest2)
      = (dapperLines hostArch rest2).map (fun out => line :: nx :: out) := by
  rw [dapperLines.eq_def]
  exact (if_pos hc).trans (if_neg (by simp [hnx]))

theorem dapperLines_pair_comment (hostArch line nx : String) (rest2 : List String)
    (hc : startsWithStr line "FROM " = true ∧ (strFields line).length = 2)
    (hnx : startsWithStr nx "# FROM" = true) :
    dapperLines hostArch (line :: nx :: rest2)
      = (match lookupA (toMap nx) hostArch with
         | some v =>
           if v = "skip" then .error .skipBuild
           else (dapperLines hostArch rest2).map
             (fun out => ("FROM " ++ v) :: nx :: out)
         | none => (dapperLines hostArch rest2).map
             (fun out => line :: nx :: out)) := by
  rw [dapperLines.eq_def]
  exact (if_pos hc).trans (if_pos hnx)

theorem dapperLines_pair_skip (hostArch line nx : String) (rest2 : List String)
    (hc : startsWithStr line "FROM " = true ∧ (strFields line).length = 2)
    (hnx : startsWithStr nx "# FROM" = true)
    (hv : lookupA (toMap nx) hostArch = some "skip") :
    dapperLines hostArch (line :: nx :: rest2) = .error .skipBuild := by
  rw [dapperLines_pair_comment hostArch line nx rest2 hc hnx, hv]
  exact if_pos rfl

theorem dapperLines_pair_rewrite (hostArch line nx v : String) (rest2 : List String)
    (hc : startsWithStr line "FROM " = true ∧ (strFields line).length = 2)
    (hnx : startsWithStr nx "# FROM" = true)
    (hv : lookupA (toMap nx) hostArch = some v) (hvs : v ≠ "skip") :
    dapperLines hostArch (line :: nx :: rest2)
      = (dapperLines hostArch rest2).map
          (fun out => ("FROM " ++ v) :: nx :: out) := by
  rw [dapperLines_pair_comment hostArch line nx rest2 hc hnx, hv]
  exact if_neg hvs

theorem dapperLines_pair_unlisted (hostArch line nx : String) (rest2 : List String)
    (hc : startsWithStr line "FROM " = true ∧ (strFields line).length = 2)
    (hnx : startsWithStr nx "# FROM" = true)
    (hv : lookupA (toMap nx) hostArch = none) :
    dapperLines hostArch (line :: nx :: rest2)
      = (dapperLines hostArch rest2).map (fun out => line :: nx :: out) := by
  rw [dapperLines_pair_comment hostArch line nx rest2 hc hnx, hv]

theorem dapperLines_append_last (hostArch l : String)
    (hl : startsWithStr l "# FROM" = false) (pre : List String) :
    ∀ out, dapperLines hostArch pre = .ok out →
      dapperLines hostArch (pre ++ [l]) = .ok (out ++ [l]) := by
  induction pre using dapperLines.induct hostArch with
  | case1 =>
    intro out h
    rw [dapperLines.eq_1] at h
    injection h with h
    subst h
    rw [List.nil_append]
    exact dapperLines_single hostArch l
  | case2 nextLine hc =>
    intro out h
    rw [dapperLines_single_from hostArch nextLine hc] at h
    injection h with h
    subst h
    show dapperLines hostArch (nextLine :: [l]) = .ok (nextLine :: [l])
    rw [dapperLines_pair_noncomment hostArch nextLine l [] hc hl]
    rfl
  | case3 line hc nx rest2 hnx hskip =>
    intro out h
    rw [dapperLines_pair_skip hostArch line nx rest2 hc hnx hskip] at h
    cases h
  | case4 line hc nx rest2 hnx v hv hvs ih =>
    intro out h
    rw [dapperLines_pair_rewrite hostArch line nx v rest2 hc hnx hv hvs] at h
    obtain ⟨o2, ho2, rfl⟩ := exceptMap_ok_inv _ _ _ h
    show dapperLines hostArch (line :: nx :: (rest2 ++ [l])) = _
    rw [dapperLines_pair_rewrite hostArch line nx v (rest2 ++ [l]) hc hnx hv hvs,
      ih o2 ho2]
    rfl
  | case5 line hc nx rest2 hnx hn ih =>
    intro out h
    rw [dapperLines_pair_unlisted hostArch line nx rest2 hc hnx hn] at h
    obtain ⟨o2, ho2, rfl⟩ := exceptMap_ok_inv _ _ _ h
    show dapperLines hostArch (line :: nx :: (rest2 ++ [l])) = _
    rw [dapperLines_pair_unlisted hostArch line nx (rest2 ++ [l]) hc hnx hn, ih o2 ho2]
    rfl
  | case6 line hc nx rest2 hnx ih =>
    intro out h
    have hnx2 : startsWithStr nx "# FROM" = false := by
      cases hb : startsWithStr nx "# FROM" with
      | true => exact absurd hb hnx
      | false => rfl
    rw [dapperLines_pair_noncomment hostArch line nx rest2 hc hnx2] at h
    obtain ⟨o2, ho2, rfl⟩ := exceptMap_ok_inv _ _ _ h
    show dapperLines hostArch (line :: nx :: (rest2 ++ [l])) = _
    rw [dapperLines_pair_noncomment hostArch line nx (rest2 ++ [l]) hc hnx2, ih o2 ho2]
    rfl
  | case7 line rest2 hc ih =>
    intro out h
    rw [dapperLines_cons_plain hostArch line rest2 hc] at h
    obtain ⟨o2, ho2, rfl⟩ := exceptMap_ok_inv _ _ _ h
    show dapperLines hostArch (line :: (rest2 ++ [l])) = _
    rw [dapperLines_cons_plain hostArch line (rest2 ++ [l]) hc, ih o2 ho2]
    rfl

/-- Witness for C2 at a concrete input. -/
theorem C2_arch_conditional_FROM_witness :
    ((strFields ("FROM " ++ "alpine")).length = 2
      ∧ (∀ c ∈ ("ubuntu" : String).data, c ≠ cQuote)
      ∧ ("ubuntu" : String) ≠ "skip"
      ∧ (("s390x" : String) ≠ "amd64" ∧ ("s390x" : String) ≠ "arm64"))
    ∧ (dapperLines "amd64" (("FROM " ++ "alpine") :: archComment "ubuntu" :: ["RUN make"])
          = (dapperLines "amd64" ["RUN make"]).map
              (fun out => ("FROM " ++ "ubuntu") :: archComment "ubuntu" :: out)
        ∧ dapperLines "arm64" (("FROM " ++ "alpine") :: archComment "ubuntu" :: ["RUN make"])
          = .error .skipBuild
        ∧ dapperLines "s390x" (("FROM " ++ "alpine") :: archComment "ubuntu" :: ["RUN make"])
          = (dapperLines "s390x" ["RUN make"]).map
              (fun out => ("FROM " ++ "alpine") :: archComment "ubuntu" :: out)) :=
  ⟨⟨by decide, by decide, by decide, by decide, by decide⟩,
    C2_arch_conditional_FROM "alpine" "ubuntu" ["RUN make"] "s390x"
      (by decide) (by decide) (by decide) ⟨by decide, by decide⟩⟩

theorem join_append_last (a : List String) (x : String) :
    String.join (a ++ [x]) = String.join a ++ x := by
  simp [String.join, List.foldl_append]

/-- C9: an input ending right after a single-token FROM line does not crash
the preprocessor: the FROM line is emitted unchanged, with a terminating
newline, and preprocessing returns normally. -/
theorem C9_eof_after_FROM (hostArch X : String) (pre out : List String)
    (hX : (strFields ("FROM " ++ X)).length = 2)
    (hpre : dapperLines hostArch pre = .ok out) :
    dapperLines hostArch (pre ++ ["FROM " ++ X]) = .ok (out ++ ["FROM " ++ X])
    ∧ dapperFile hostArch (pre ++ ["FROM " ++ X])
        = .ok (String.join (out.map (fun l2 => l2 ++ "\n"))
            ++ ("FROM " ++ X ++ "\n")) := by
  have h1 := dapperLines_append_last hostArch ("FROM " ++ X) (FROM_not_comment X)
    pre out hpre
  refine ⟨h1, ?_⟩
  rw [dapperFile, h1]
  simp only [Except.map, List.map_append, List.map_cons, List.map_nil, join_append_last]

/-- Witness for C9 at a concrete input. -/
theorem C9_eof_after_FROM_witness :
    ((strFields ("FROM " ++ "alpine")).length = 2
      ∧ dapperLines "amd64" ["RUN ls"] = .ok ["RUN ls"])
    ∧ (dapperLines "amd64" (["RUN ls"] ++ ["FROM " ++ "alpine"])
          = .ok (["RUN ls"] ++ ["FROM " ++ "alpine"])
        ∧ dapperFile "amd64" (["RUN ls"] ++ ["FROM " ++ "alpine"])
          = .ok (String.join (["RUN ls"].map (fun l2 => l2 ++ "\n"))
              ++ ("FROM " ++ "alpine" ++ "\n"))) :=
  ⟨⟨by decide, by rfl⟩,
    C9_eof_after_FROM "amd64" "alpine" ["RUN ls"] ["RUN ls"] (by decide) (by rfl)⟩

/-- C10: a non-comment line consumed as the lookahead of a single-token FROM
line is emitted verbatim and never re-examined as a potential FROM line; in
particular, when a second single-token FROM line immediately follows a first
one and is itself followed by an arch-map comment, the map is never applied to
that second FROM line and the comment passes through as an ordinary line. -/
theorem C10_lookahead_not_reexamined (hostArch A B cm : String) (rest : List String)
    (hA : (strFields ("FROM " ++ A)).length = 2)
    (hB : (strFields ("FROM " ++ B)).length = 2)
    (hcm : startsWithStr cm "# FROM" = true) :
    dapperLines hostArch (("FROM " ++ A) :: ("FROM " ++ B) :: cm :: rest)
      = (dapperLines hostArch rest).map
          (fun out => ("FROM " ++ A) :: ("FROM " ++ B) :: cm :: out)
    ∧ (∀ (fa nx : String) (rest2 : List String),
        startsWithStr fa "FROM " = true → (strFields fa).length = 2 →
        startsWithStr nx "# FROM" = false →
        dapperLines hostArch (fa :: nx :: rest2)
          = (dapperLines hostArch rest2).map (fun out => fa :: nx :: out)) := by
  constructor
  · have h1 := dapperLines_pair_noncomment hostArch ("FROM " ++ A) ("FROM " ++ B)
      (cm :: rest) ⟨startsWithStr_append .., hA⟩ (FROM_not_comment B)
    have hcmcond : ¬(startsWithStr cm "FROM " = true ∧ (strFields cm).length = 2) := by
      intro hcc
      rw [comment_not_FROM cm hcm] at hcc
      exact absurd hcc.1 (by simp)
    have h2 := dapperLines_cons_plain hostArch cm rest hcmcond
    rw [h1, h2]
    cases dapperLines hostArch rest <;> rfl
  · intro fa nx rest2 hfa hlen hnx
    exact dapperLines_pair_noncomment hostArch fa nx rest2 ⟨hfa, hlen⟩ hnx

/-- Witness for C10 at a concrete input. -/
theorem C10_lookahead_not_reexamined_witness :
    ((strFields ("FROM " ++ "alpine")).length = 2
      ∧ (strFields ("FROM " ++ "busybox")).length = 2
      ∧ startsWithStr (archComment "x") "# FROM" = true)
    ∧ dapperLines "amd64"
        (("FROM " ++ "alpine") :: ("FROM " ++ "busybox") :: archComment "x" :: ["RUN ls"])
        = (dapperLines "amd64" ["RUN ls"]).map
            (fun out => ("FROM " ++ "alpine") :: ("FROM " ++ "busybox")
              :: archComment "x" :: out)
    ∧ dapperLines "amd64" (("FROM " ++ "golang") :: "RUN make" :: ["CMD sh"])
        = (dapperLines "amd64" ["CMD sh"]).map
            (fun out => ("FROM " ++ "golang") :: "RUN make" :: out) :=
  ⟨⟨by decide, by decide, by decide⟩,
    (C10_lookahead_not_reexamined "amd64" "alpine" "busybox" (archComment "x")
      ["RUN ls"] (by decide) (by decide) (by decide)).1,
    (C10_lookahead_not_reexamined "amd64" "alpine" "busybox" (archComment "x")
      ["RUN ls"] (by decide) (by decide) (by decide)).2
      ("FROM " ++ "golang") "RUN make" ["CMD sh"] (by decide) (by decide) (by decide)⟩

theorem lookupA_upsertA_self {α : Type} (m : List (String × α)) (k : String) (v : α) :
    lookupA (upsertA m k v) k = some v := by
  induction m with
  | nil => simp [upsertA, lookupA]
  | cons kv rest ih =>
    obtain ⟨k2, v2⟩ := kv
    by_cases h : k2 = k
    · subst h; simp [upsertA, lookupA]
    · simp [upsertA, lookupA, h, ih]

theorem lookupA_upsertA_other {α : Type} (m : List (String × α)) (k2 k : String)
    (v : α) (h : k2 ≠ k) : lookupA (upsertA m k2 v) k = lookupA m k := by
  induction m with
  | nil => simp [upsertA, lookupA, h]
  | cons kv rest ih =>
    obtain ⟨k3, v3⟩ := kv
    by_cases h3 : k3 = k2
    · subst h3; simp [upsertA, lookupA, h]
    · simp [upsertA, lookupA, h3, ih]

theorem argValueOf_of_set (getenv : String → String) (findHost k : String)
    (hk : getenv k ≠ "") : argValueOf getenv findHost k = getenv k := by
  rw [argValueOf, if_neg (fun hc => hk hc.2)]

theorem argsFromEnv_fold_preserve (getenv : String → String) (findHost k : String)
    (hk : getenv k ≠ "") :
    ∀ (lines : List String) (st : List (String × String) × String),
      lookupA st.1 k = some (getenv k) →
      lookupA (lines.foldl (argsFromEnvStep getenv findHost) st).1 k
        = some (getenv k) := by
  intro lines
  induction lines with
  | nil => intro st h; exact h
  | cons raw rest ih =>
    intro st h
    rw [List.foldl_cons]
    apply ih
    cases hkey : argLineKey raw with
    | none => simp only [argsFromEnvStep, hkey]; exact h
    | some key =>
      simp only [argsFromEnvStep, hkey]
      by_cases hk2 : key = k
      · subst hk2
        rw [if_pos (by rw [argValueOf_of_set getenv findHost key hk]; exact hk)]
        show lookupA (upsertA st.1 key (argValueOf getenv findHost key)) key = _
        rw [argValueOf_of_set getenv findHost key hk]
        exact lookupA_upsertA_self ..
      · by_cases hins : argValueOf getenv findHost key = ""
        · rw [if_neg (by simpa using hins)]
          exact h
        · rw [if_pos hins]
          show lookupA (upsertA st.1 key (argValueOf getenv findHost key)) k = _
          rw [lookupA_upsertA_other _ _ _ _ hk2]
          exact h

theorem argsFromEnv_fold_mem (getenv : String → String) (findHost k : String)
    (hk : getenv k ≠ "") :
    ∀ (lines : List String) (st : List (String × String) × String),
      (∃ raw ∈ lines, argLineKey raw = some k) →
      lookupA (lines.foldl (argsFromEnvStep getenv findHost) st).1 k
        = some (getenv k) := by
  intro lines
  induction lines with
  | nil =>
    rintro st ⟨raw, hmem, _⟩
    exact absurd hmem (List.not_mem_nil raw)
  | cons raw rest ih =>
    rintro st ⟨r, hmem, hkey⟩
    rw [List.foldl_cons]
    rcases List.mem_cons.mp hmem with rfl | hmem2
    · apply argsFromEnv_fold_preserve getenv findHost k hk rest
      simp only [argsFromEnvStep, hkey]
      rw [if_pos (by rw [argValueOf_of_set getenv findHost k hk]; exact hk)]
      show lookupA (upsertA st.1 k (argValueOf getenv findHost k)) k = _
      rw [argValueOf_of_set getenv findHost k hk]
      exact lookupA_upsertA_self ..
    · exact ih _ ⟨r, hmem2, hkey⟩

theorem argsFromEnv_fold_absent (getenv : String → String) (findHost k : String)
    (hk : getenv k = "") (hkd : k ≠ "DAPPER_HOST_ARCH") :
    ∀ (lines : List String) (st : List (String × String) × String),
      lookupA st.1 k = none →
      lookupA (lines.foldl (argsFromEnvStep getenv findHost) st).1 k = none := by
  intro lines
  induction lines with
  | nil => intro st h; exact h
  | cons raw rest ih =>
    intro st h
    rw [List.foldl_cons]
    apply ih
    cases hkey : argLineKey raw with
    | none => simp only [argsFromEnvStep, hkey]; exact h
    | some key =>
      simp only [argsFromEnvStep, hkey]
      by_cases hk2 : key = k
      · subst hk2
        have hval : argValueOf getenv findHost key = "" := by
          rw [argValueOf, if_neg (fun hc => hkd hc.1), hk]
        rw [if_neg (by simpa using hval)]
        exact h
      · by_cases hins : argValueOf getenv findHost key = ""
        · rw [if_neg (by simpa using hins)]
          exact h
        · rw [if_pos hins]
          show lookupA (upsertA st.1 key (argValueOf getenv findHost key)) k = _
          rw [lookupA_upsertA_other _ _ _ _ hk2]
          exact h

/-- C4: for a Dockerfile declaring `ARG <k>`, the harvested build-argument map
contains `k = getenv k` when the host environment sets `k` to a non-empty
value, and does not contain the key `k` at all when `k` is unset in the host
environment (never an empty-string entry). -/
theorem C4_arg_env_harvest (getenv : String → String)
    (findHost initArch k : String) (lines : List String)
    (hdecl : ∃ raw ∈ lines, argLineKey raw = some k) :
    (getenv k ≠ "" →
      lookupA (argsFromEnv getenv findHost initArch lines).1 k = some (getenv k))
    ∧ (getenv k = "" → k ≠ "DAPPER_HOST_ARCH" →
      lookupA (argsFromEnv getenv findHost initArch lines).1 k = none) := by
  constructor
  · intro hk
    exact argsFromEnv_fold_mem getenv findHost k hk lines ([], initArch) hdecl
  · intro hk hkd
    exact argsFromEnv_fold_absent getenv findHost k hk hkd lines ([], initArch) rfl

/-- Witness for C4 at a concrete input. -/
theorem C4_arg_env_harvest_witness :
    ((∃ raw ∈ ["ARG FOO"], argLineKey raw = some "FOO")
      ∧ (fun s => if s = "FOO" then "bar" else "") "FOO" ≠ ""
      ∧ (fun _ : String => "") "FOO" = ""
      ∧ ("FOO" : String) ≠ "DAPPER_HOST_ARCH")
    ∧ lookupA (argsFromEnv (fun s => if s = "FOO" then "bar" else "")
        "amd64" "" ["ARG FOO"]).1 "FOO" = some "bar"
    ∧ lookupA (argsFromEnv (fun _ => "") "amd64" "" ["ARG FOO"]).1 "FOO" = none :=
  ⟨⟨by decide, by decide, by decide, by decide⟩,
    (C4_arg_env_harvest (fun s => if s = "FOO" then "bar" else "") "amd64" "" "FOO"
      ["ARG FOO"] (by decide)).1 (by decide),
    (C4_arg_env_harvest (fun _ => "") "amd64" "" "FOO" ["ARG FOO"] (by decide)).2
      (by decide) (by decide)⟩

theorem sanitizeRef_chars (s : String) :
    ∀ c ∈ (sanitizeRef s).data, isAlnumChar c = true ∨ c = '-' := by
  intro c hc
  have hd : (sanitizeRef s).data
      = s.data.map (fun c => if isAlnumChar c then c else '-') := rfl
  rw [hd] at hc
  obtain ⟨c0, _, rfl⟩ := List.mem_map.mp hc
  by_cases h : isAlnumChar c0
  · simp [h]
  · simp [h]

theorem tagLegalChar_of_sanitized (c : Char) (h : isAlnumChar c = true ∨ c = '-') :
    tagLegalChar c = true := by
  rcases h with h | h
  · simp [tagLegalChar, h]
  · subst h; decide

/-- C5 counterexample: the directory name is lowercased but NOT sanitized, so
a directory containing an underscore (and uppercase letters) together with a
slash-containing branch yields a tag with a character outside
`[A-Za-z0-9:-]`, contradicting the claim as stated. -/
theorem C5_counterexample :
    tagOf (some "My_Project") "feature/x" "r" = "my_project:feature-x"
    ∧ '_' ∈ (tagOf (some "My_Project") "feature/x" "r").data
    ∧ tagLegalChar '_' = false := by decide

/-- C5 (amended): the derived tag is
`<lowercased-directory-name>:<sanitized-ref>` where the ref is the trimmed
branch (falling back to the random token when empty) with every character
outside `[A-Za-z0-9]` replaced by `-`; the sanitized ref contains only
`[A-Za-z0-9-]`, and the whole tag stays inside `[A-Za-z0-9:-]` provided the
lowercased directory name itself only contains such characters (the directory
name is lowercased but not sanitized). -/
theorem C5_tag_shape (cwdBase gitOutput rand : String) :
    (trimGo gitOutput ≠ "" →
      tagOf (some cwdBase) gitOutput rand
        = lowerGo cwdBase ++ ":" ++ sanitizeRef (trimGo gitOutput))
    ∧ (trimGo gitOutput = "" →
      tagOf (some cwdBase) gitOutput rand
        = lowerGo cwdBase ++ ":" ++ sanitizeRef rand)
    ∧ (∀ c ∈ (sanitizeRef (if trimGo gitOutput = "" then rand
          else trimGo gitOutput)).data,
        isAlnumChar c = true ∨ c = '-')
    ∧ ((∀ c ∈ (lowerGo cwdBase).data, tagLegalChar c = true) →
        ∀ c ∈ (tagOf (some cwdBase) gitOutput rand).data, tagLegalChar c = true) := by
  refine ⟨?_, ?_, sanitizeRef_chars _, ?_⟩
  · intro h
    simp only [tagOf, if_neg h]
  · intro h
    simp only [tagOf, if_pos h]
  · intro hlow c hc
    simp only [tagOf] at hc
    rw [String.data_append, String.data_append] at hc
    rcases List.mem_append.mp hc with hc1 | hc3
    · rcases List.mem_append.mp hc1 with hc1 | hc2
      · exact hlow c hc1
      · have : c = ':' := by simpa using hc2
        subst this; decide
    · exact tagLegalChar_of_sanitized c (sanitizeRef_chars _ c hc3)

/-- Witness for C5 (amended) at a concrete input. -/
theorem C5_tag_shape_witness :
    (trimGo "feature/x" ≠ "" →
      tagOf (some "MyProject") "feature/x" "r"
        = lowerGo "MyProject" ++ ":" ++ sanitizeRef (trimGo "feature/x"))
    ∧ (trimGo "feature/x" = "" →
      tagOf (some "MyProject") "feature/x" "r"
        = lowerGo "MyProject" ++ ":" ++ sanitizeRef "r")
    ∧ (∀ c ∈ (sanitizeRef (if trimGo "feature/x" = "" then "r"
          else trimGo "feature/x")).data,
        isAlnumChar c = true ∨ c = '-')
    ∧ ((∀ c ∈ (lowerGo "MyProject").data, tagLegalChar c = true) →
        ∀ c ∈ (tagOf (some "MyProject") "feature/x" "r").data, tagLegalChar c = true) :=
  C5_tag_shape "MyProject" "feature/x" "r"

/-- C1 counterexample: in the emitted graph, stage1's Outputs field is not
empty — it is replaced by the single non-materializing entry
"type=cacheonly" — so the claim's "stage1's outputs are empty" fails. -/
theorem C1_counterexample :
    (lookupA (bakeFile
        { NoContext := false, Target := "", Args := [], File := "Dockerfile",
          CacheFrom := ["cfrom"], CacheTo := ["cto"] }
        ["."] true false "repo:main" "./src" "/go/src/app").Targets "stage1").map
      Target.Outputs = some ["type=cacheonly"]
    ∧ some ["type=cacheonly"] ≠ some ([] : List String) := by decide

/-- C1 (amended): in graph-build mode with copy semantics (build for run,
non-bind), the emitted graph's "stage2" target has
`Contexts = [("stage1", "target:stage1")]` and inherits stage1's original
Tags, CacheFrom, CacheTo and Outputs verbatim, while the emitted "stage1"
target's tags and cache directives are empty and its outputs are replaced by
the single non-materializing entry "type=cacheonly". -/
theorem C1_graph_copy_wiring (cfg : BakeConfig) (args : List String)
    (tag cp source : String) :
    lookupA (bakeFile cfg args true false tag cp source).Targets "stage2"
      = some
          { Args := [], Context := contextPathOf args,
            Contexts := [("stage1", "target:stage1")],
            CacheFrom := cfg.CacheFrom, CacheTo := cfg.CacheTo,
            Dockerfile := "",
            DockerfileInline := "FROM stage1\nCOPY " ++ cp ++ " " ++ source,
            Outputs := ["type=docker"], Tags := [tag], Target := "" }
    ∧ lookupA (bakeFile cfg args true false tag cp source).Targets "stage1"
      = some
          { Args := cfg.Args, Context := contextPathOf args, Contexts := [],
            CacheFrom := [], CacheTo := [],
            Dockerfile := cfg.File, DockerfileInline := "",
            Outputs := ["type=cacheonly"], Tags := [], Target := cfg.Target }
    ∧ lookupA (bakeFile cfg args true false tag cp source).Groups "default"
      = some ⟨["stage1", "stage2"]⟩ :=
  ⟨rfl, rfl, rfl⟩

/-- C7: requesting contextless mode together with graph-build fails
immediately with the fatal configuration error; no backend command is issued
and no build graph is produced. -/
theorem C7_contextless_bake_fatal (cfg : BakeConfig) (args : List String)
    (copy isBind : Bool) (tag cp source : String)
    (execOk : List String → Bool) (readEnvOk : Bool)
    (h : cfg.NoContext = true) :
    bake cfg args copy isBind tag cp source execOk readEnvOk
      = ([], .error "contextless builds are not supported by buildkit") := by
  rw [bake, if_pos h]

/-- Witness for C7 at a concrete input. -/
theorem C7_contextless_bake_fatal_witness :
    ({ NoContext := true, Target := "", Args := [], File := "Dockerfile",
        CacheFrom := [], CacheTo := [] } : BakeConfig).NoContext = true
    ∧ bake
        { NoContext := true, Target := "", Args := [], File := "Dockerfile",
          CacheFrom := [], CacheTo := [] }
        [] true false "repo:main" "./src" "/go/src/app" (fun _ => true) true
      = ([], .error "contextless builds are not supported by buildkit") :=
  ⟨rfl, C7_contextless_bake_fatal
    { NoContext := true, Target := "", Args := [], File := "Dockerfile",
      CacheFrom := [], CacheTo := [] }
    [] true false "repo:main" "./src" "/go/src/app" (fun _ => true) true rfl⟩

theorem foldl_env_append (envs : List String) (acc : List String) :
    envs.foldl (fun a e => a ++ ["-e", e]) acc
      = acc ++ (envs.map (fun e => ["-e", e])).flatten := by
  induction envs generalizing acc with
  | nil => simp
  | cons e rest ih => simp [ih, List.append_assoc]

/-- C3: the argument vector built for container creation has exactly the
enumerated deterministic order: interactive and name flags, pseudo-terminal
flag if stdout is a terminal, socket mount if requested, bind mount if bind
mode applies, DAPPER_UID/DAPPER_GID injections, extra environment pairs,
entrypoint override plus TERM when a shell is given, Runtime Config run flags,
the tag, and finally the trailing command — or the placeholder "-" exactly
when a shell is requested and no trailing command was supplied. -/
theorem C3_run_args_order (cfg : RunConfig) (tg shell : String)
    (commandArgs : List String) (rand : String) :
    runArgs cfg tg shell commandArgs rand
      = (mkContainerName tg rand,
        ["-i", "--name", mkContainerName tg rand]
        ++ (if cfg.tty then ["-t"] else [])
        ++ (if cfg.envSocket || cfg.dSocket then ["-v", cfg.vSocket] else [])
        ++ (if cfg.isBind then
              match cfg.wd with
              | some wd => ["-v", wd ++ "/" ++ cfg.cp ++ ":" ++ cfg.source
                  ++ (if ¬(cfg.mountSuffix = "") then ":" ++ cfg.mountSuffix else "")]
              | none => []
            else [])
        ++ ["-e", "DAPPER_UID=" ++ toString cfg.uid]
        ++ ["-e", "DAPPER_GID=" ++ toString cfg.gid]
        ++ (cfg.env.map (fun e => ["-e", e])).flatten
        ++ (if ¬(shell = "") then ["--entrypoint", shell, "-e", "TERM"] else [])
        ++ cfg.extraRunArgs
        ++ [tg]
        ++ (if ¬(shell = "") ∧ commandArgs.length = 0 then ["-"]
            else commandArgs)) := by
  simp only [runArgs, foldl_env_append]
  rcases hwd : cfg.wd with _ | wd <;>
    cases htty : cfg.tty <;> cases hs1 : cfg.envSocket <;> cases hs2 : cfg.dSocket <;>
    cases hbind : cfg.isBind <;>
    by_cases hsh : shell = "" <;> by_cases hca : commandArgs.length = 0 <;>
    simp [htty, hs1, hs2, hbind, hwd, hsh, hca, List.append_assoc]

theorem copyBackLoop_all_ok (name source : String) (mkdirOk : String → Bool)
    (cpOk : List String → Bool) :
    ∀ (output dirs : List String) (cmds : List (List String)),
      (∀ i ∈ output, mkdirOk (pathDir i) = true) →
      copyBackLoop name source mkdirOk cpOk output dirs cmds
        = ⟨dirs ++ output.map pathDir,
           cmds ++ output.map (fun i => ["cp", name ++ ":"
             ++ (if startsWithStr i "/" then i else pathJoin source i), pathDir i]),
           .ok ()⟩ := by
  intro output
  induction output with
  | nil => intro dirs cmds _; simp [copyBackLoop]
  | cons i rest ih =>
    intro dirs cmds h
    have hi : mkdirOk (pathDir i) = true := h i (List.mem_cons_self ..)
    simp only [copyBackLoop, if_neg (by simp [hi] :
      ¬mkdirOk (pathDir i) = false)]
    rw [ih _ _ (fun j hj => h j (List.mem_cons_of_mem _ hj))]
    simp [List.append_assoc]

/-- C8: in bind mode the output-copy-back step is entirely suppressed even
with a non-empty Output list; in non-bind mode (output not disabled) each
declared output path gets its host directory ensured and a copy command
issued, and the overall result is success for every per-path copy outcome —
an individual copy failure never fails the run. -/
theorem C8_copy_back_semantics (noOut : Bool) (name source : String)
    (output : List String) (mkdirOk : String → Bool) (cpOk : List String → Bool)
    (hmk : ∀ i ∈ output, mkdirOk (pathDir i) = true) :
    runCopyBack true noOut name source output mkdirOk cpOk = ⟨[], [], .ok ()⟩
    ∧ runCopyBack false false name source output mkdirOk cpOk
      = ⟨output.map pathDir,
         output.map (fun i => ["cp", name ++ ":"
           ++ (if startsWithStr i "/" then i else pathJoin source i), pathDir i]),
         .ok ()⟩ := by
  constructor
  · simp [runCopyBack]
  · rw [runCopyBack]
    have := copyBackLoop_all_ok name source mkdirOk cpOk output [] [] hmk
    simpa using this

/-- Witness for C8 at a concrete input, with every copy command failing. -/
theorem C8_copy_back_semantics_witness :
    (∀ i ∈ ["/out/result"], (fun _ : String => true) (pathDir i) = true)
    ∧ runCopyBack true false "ctr" "/src" ["/out/result"] (fun _ => true)
        (fun _ => false) = ⟨[], [], .ok ()⟩
    ∧ runCopyBack false false "ctr" "/src" ["/out/result"] (fun _ => true)
        (fun _ => false)
      = ⟨["/out/result"].map pathDir,
         ["/out/result"].map (fun i => ["cp", "ctr" ++ ":"
           ++ (if startsWithStr i "/" then i else pathJoin "/src" i), pathDir i]),
         .ok ()⟩ :=
  ⟨by decide,
    (C8_copy_back_semantics false "ctr" "/src" ["/out/result"] (fun _ => true)
      (fun _ => false) (by decide)).1,
    (C8_copy_back_semantics false "ctr" "/src" ["/out/result"] (fun _ => true)
      (fun _ => false) (by decide)).2⟩

/-- C6: when the architecture map of a FROM line maps the host architecture to
"skip", preprocessing aborts with the distinguished skip signal — distinct
from every ordinary error — and the classic build issues no backend command at
all. -/
theorem C6_skip_signal (cfg : LegacyConfig) (hostArch X cmt : String)
    (rest args : List String) (copy isBind : Bool) (tag tmp1 tmp2 : String)
    (execOk : List String → Bool) (readEnvOk : Bool)
    (hX : (strFields ("FROM " ++ X)).length = 2)
    (hcmt : startsWithStr cmt "# FROM" = true)
    (hmap : lookupA (toMap cmt) hostArch = some "skip") :
    dapperLines hostArch (("FROM " ++ X) :: cmt :: rest) = .error .skipBuild
    ∧ buildLegacy cfg hostArch (("FROM " ++ X) :: cmt :: rest) args copy isBind
        tag tmp1 tmp2 execOk readEnvOk = ([], .error .skipBuild)
    ∧ (∀ msg, BuildSignal.skipBuild ≠ BuildSignal.buildError msg) := by
  have h1 := dapperLines_pair_skip hostArch ("FROM " ++ X) cmt rest
    ⟨startsWithStr_append .., hX⟩ hcmt hmap
  refine ⟨h1, ?_, by intro msg hmsg; cases hmsg⟩
  simp only [buildLegacy, h1]

/-- Witness for C6 at a concrete input. -/
theorem C6_skip_signal_witness :
    ((strFields ("FROM " ++ "alpine")).length = 2
      ∧ startsWithStr "# FROM \x7b\"amd64\":\"skip\"\x7d" "# FROM" = true
      ∧ lookupA (toMap "# FROM \x7b\"amd64\":\"skip\"\x7d") "amd64" = some "skip")
    ∧ dapperLines "amd64"
        (("FROM " ++ "alpine") :: "# FROM \x7b\"amd64\":\"skip\"\x7d" :: ["RUN ls"])
        = .error .skipBuild
    ∧ buildLegacy
        { Quiet := false, Target := "", Args := [], NoContext := false } "amd64"
        (("FROM " ++ "alpine") :: "# FROM \x7b\"amd64\":\"skip\"\x7d" :: ["RUN ls"])
        [] true false "repo:main" "tmp1" "tmp2" (fun _ => true) true
      = ([], .error .skipBuild)
    ∧ (∀ msg, BuildSignal.skipBuild ≠ BuildSignal.buildError msg) :=
  ⟨⟨by decide, by decide, by decide⟩,
    (C6_skip_signal { Quiet := false, Target := "", Args := [], NoContext := false }
      "amd64" "alpine" "# FROM \x7b\"amd64\":\"skip\"\x7d" ["RUN ls"] [] true false
      "repo:main" "tmp1" "tmp2" (fun _ => true) true
      (by decide) (by decide) (by decide)).1,
    (C6_skip_signal { Quiet := false, Target := "", Args := [], NoContext := false }
      "amd64" "alpine" "# FROM \x7b\"amd64\":\"skip\"\x7d" ["RUN ls"] [] true false
      "repo:main" "tmp1" "tmp2" (fun _ => true) true
      (by decide) (by decide) (by decide)).2.1,
    (C6_skip_signal { Quiet := false, Target := "", Args := [], NoContext := false }
      "amd64" "alpine" "# FROM \x7b\"amd64\":\"skip\"\x7d" ["RUN ls"] [] true false
      "repo:main" "tmp1" "tmp2" (fun _ => true) true
      (by decide) (by decide) (by decide)).2.2⟩

end Dapper
